import Mathlib

/-!
Verification of the AI-Sampler-Sequencer repository: a shallow embedding of
the step sequencer's scheduling loop and per-step effect-graph builder
(src/components/Sequencer.tsx), the pattern operations and offline export
(src/App.tsx), the WAV encode / PCM decode helpers
(src/services/audioUtils.ts) and the generation-request settlement logic
(src/services/geminiService.ts), together with theorems settling the
specification's claims about them.

Numeric audio-clock times, tempos and sample values are embedded as
rationals; audio buffers are either opaque values (scheduler, export) or
channel lists of rational samples (WAV round-trip).
-/

/-- The closed set of effect identifiers, in the key order of FX_CONFIG in
src/App.tsx. -/
inductive Fx where
  | normal
  | reverb
  | delay
  | reverse
  | glitch
  | lowpass
  | highpass
  | bandpass
  | phaser
  | stutter
  | pitchUp
  | pitchDown
  | autoPan
  | gate
  | bitcrusher
  | pingPong
  | filterSweep
  | vibrato
  | tapeStop
  | stereoWiden
deriving DecidableEq, Repr

/-- The FX_CONFIG keys as strings, used by the JS array-join comparison in
handleRandomizePattern (a JS `null` renders as the empty string in a join). -/
def fxName : Option Fx → String
  | none => ""
  | some Fx.normal => "normal"
  | some Fx.reverb => "reverb"
  | some Fx.delay => "delay"
  | some Fx.reverse => "reverse"
  | some Fx.glitch => "glitch"
  | some Fx.lowpass => "lowpass"
  | some Fx.highpass => "highpass"
  | some Fx.bandpass => "bandpass"
  | some Fx.phaser => "phaser"
  | some Fx.stutter => "stutter"
  | some Fx.pitchUp => "pitchUp"
  | some Fx.pitchDown => "pitchDown"
  | some Fx.autoPan => "autoPan"
  | some Fx.gate => "gate"
  | some Fx.bitcrusher => "bitcrusher"
  | some Fx.pingPong => "pingPong"
  | some Fx.filterSweep => "filterSweep"
  | some Fx.vibrato => "vibrato"
  | some Fx.tapeStop => "tapeStop"
  | some Fx.stereoWiden => "stereoWiden"

/-- `Object.keys(FX_CONFIG)`: the 20 effect identifiers in declaration
order. -/
def fxKeys : List Fx :=
  [Fx.normal, Fx.reverb, Fx.delay, Fx.reverse, Fx.glitch, Fx.lowpass,
   Fx.highpass, Fx.bandpass, Fx.phaser, Fx.stutter, Fx.pitchUp,
   Fx.pitchDown, Fx.autoPan, Fx.gate, Fx.bitcrusher, Fx.pingPong,
   Fx.filterSweep, Fx.vibrato, Fx.tapeStop, Fx.stereoWiden]

/-- A pattern is the App's `pattern` state: a list of slots, each holding an
effect identifier or empty (`null`). -/
abbrev Pattern := List (Option Fx)

/-- handleToggleStep from src/App.tsx: copy the pattern; if the slot at
`index` already holds the selected effect, clear it, otherwise write the
selected effect there. -/
def handleToggleStep (pattern : Pattern) (selectedFx : Fx) (index : ℕ) :
    Pattern :=
  pattern.set index
    (if pattern.getD index none = some selectedFx then none
     else some selectedFx)

/-- The `possibleStates` pool of handleRandomizePattern in src/App.tsx: all
FX_CONFIG keys followed by six `null` entries. -/
def possibleStates : List (Option Fx) :=
  fxKeys.map some ++ [none, none, none, none, none, none]

/-- `isSamePattern` from handleRandomizePattern: JS `p1.join(',') ===
p2.join(',')`, with `null` rendering as the empty string. -/
def isSamePattern (p1 p2 : Pattern) : Bool :=
  String.intercalate "," (p1.map fxName) = String.intercalate "," (p2.map fxName)

/-- One draw of the do-while body of handleRandomizePattern: 16 slots, each
picked from `possibleStates` by an index below 26 (`Math.floor(Math.random()
* possibleStates.length)`). -/
def drawOnce (pick : ℕ → Fin 26) : Pattern :=
  (List.range 16).map fun i => possibleStates.getD (pick i) none

/-- The do-while exit condition of handleRandomizePattern: the drawn pattern
is kept when it differs from the current pattern (by the join comparison)
and is not entirely empty. -/
def validDraw (pattern drawn : Pattern) : Prop :=
  isSamePattern drawn pattern = false ∧ drawn.all (· = none) = false

instance (pattern drawn : Pattern) : Decidable (validDraw pattern drawn) :=
  inferInstanceAs (Decidable (_ ∧ _))

/-- handleRandomizePattern from src/App.tsx: repeat the 16-slot draw until
it is valid. The random source is a stream of draws (one `pick` function per
do-while attempt); the loop returns the first valid attempt, whose existence
is the hypothesis `h`. -/
def handleRandomizePattern (pattern : Pattern) (picks : ℕ → ℕ → Fin 26)
    (h : ∃ k, validDraw pattern (drawOnce (picks k))) : Pattern :=
  drawOnce (picks (Nat.find h))

/-! ## Step scheduler (src/components/Sequencer.tsx) -/

/-- The scheduler's mutable refs that evolve per while-loop iteration:
`nextStepTimeRef` and `stepRef`. -/
structure SchedState where
  nextStepTime : ℚ
  step : ℕ
deriving DecidableEq, Repr

/-- One iteration of the scheduler's while loop, state part: after the
(possible) trigger, `nextStepTimeRef.current += 60/bpm/4` and
`stepRef.current = (stepRef.current + 1) % 16`. -/
def schedStep (bpm : ℚ) (st : SchedState) : SchedState :=
  { nextStepTime := st.nextStepTime + 60 / bpm / 4
    step := (st.step + 1) % 16 }

/-- The scheduler state after `n` while-loop iterations from `st0`. -/
def schedStates (bpm : ℚ) (st0 : SchedState) : ℕ → SchedState
  | 0 => st0
  | n + 1 => schedStep bpm (schedStates bpm st0 n)

/-- The trigger times of the steps actually fired during the first `n`
while-loop iterations: iteration `k` fires at `playTime = nextStepTimeRef
.current` exactly when `pattern[stepRef.current]` is non-empty and a sample
buffer is loaded (`if (fx && sampleBuffer)`). -/
def firedTimes {α : Type} (bpm : ℚ) (pattern : Pattern)
    (sampleBuffer : Option α) (st0 : SchedState) (n : ℕ) : List ℚ :=
  (List.range n).filterMap fun k =>
    let st := schedStates bpm st0 k
    if (pattern.getD st.step none).isSome ∧ sampleBuffer.isSome then
      some st.nextStepTime
    else none

/-- The props / refs the scheduler's trigger body reads: tempo, the forward
and reversed sample buffers, whether the impulse response has been built and
whether `createStereoPanner` is supported. -/
structure SchedCtx (α : Type) where
  bpm : ℚ
  sampleBuffer : Option α
  reversedSampleBuffer : Option α
  impulsePresent : Bool
  stereoPannerSupported : Bool

/-- One `stutterSource.start(when, offset, duration)` call as issued by the
glitch and stutter branches; for glitch the copy runs through a gain node
whose value is set at a given time (`gain = some (value, setAt)`), for
stutter the copy connects straight to the limiter (`gain = none`). -/
structure RetrigEvent (α : Type) where
  buf : α
  startAt : ℚ
  offset : ℚ
  dur : ℚ
  gain : Option (ℚ × ℚ)
deriving DecidableEq, Repr

/-- The observable outcome of one pass through the trigger body of the
scheduler for one step: how many audio nodes were created, which buffer was
assigned to the primary source, whether / when that source was started,
whether it was routed into the limiter (the master bus), and the fan-out
copies scheduled by the glitch / stutter branches.  The embedded trigger
body is a total function: no branch can raise. -/
structure StepTrace (α : Type) where
  nodesCreated : ℕ
  primaryBuffer : Option α
  primaryStart : Option ℚ
  primaryRouted : Bool
  retrigs : List (RetrigEvent α)
deriving DecidableEq, Repr

/-- The empty outcome: nothing created, started, routed or scheduled. -/
def emptyTrace (α : Type) : StepTrace α :=
  { nodesCreated := 0, primaryBuffer := none, primaryStart := none
    primaryRouted := false, retrigs := [] }

/-- The trigger body of the scheduler's while loop
(src/components/Sequencer.tsx, `if (fx && sampleBuffer) { ... }` and the
switch over `fx`), for one step with effect slot `fx` at
`playTime = nextStepTimeRef.current`.

Nothing at all happens unless the slot is non-empty and the forward sample
buffer is loaded.  The primary source's buffer is
`reversedSampleBuffer ?? sampleBuffer` for 'reverse' and `sampleBuffer`
otherwise.  Per branch, the node-creation count follows the source: reverb
creates a convolver only when the impulse response exists; delay creates
delay + feedback + wet gain; pingPong creates two delays, a gain, a merger
and a splitter; glitch creates a gain and a buffer source per copy plus the
dummy gain and schedules 3 copies at 50 ms spacing, each with offset 0,
duration 50 ms and gain `1 - i/3` set at its start; stutter creates a
buffer source per copy plus the dummy gain and schedules 4 copies at
`(60/bpm)/8` spacing, each with offset 0 and that same duration; the three
fixed filters, filterSweep, gate and bitcrusher create one node; phaser
creates four; vibrato and autoPan create two; stereoWiden creates three
when supported; normal, reverse, tapeStop, pitchUp and pitchDown create
none beyond the source.  Finally, unless the effect is glitch or stutter,
the chain tail is connected to the limiter and the primary source is
started at `playTime`. -/
def triggerStep {α : Type} (ctx : SchedCtx α) (fx : Option Fx)
    (playTime : ℚ) : StepTrace α :=
  match fx, ctx.sampleBuffer with
  | some f, some sb =>
    let primaryBuf : α :=
      match f, ctx.reversedSampleBuffer with
      | Fx.reverse, some rb => rb
      | Fx.reverse, none => sb
      | _, _ => sb
    let extra : ℕ × List (RetrigEvent α) :=
      match f with
      | Fx.reverb => (if ctx.impulsePresent then 1 else 0, [])
      | Fx.delay => (3, [])
      | Fx.pingPong => (5, [])
      | Fx.glitch =>
          (1 + 2 * 3,
           (List.range 3).map fun i =>
             { buf := sb
               startAt := playTime + i * (1 / 20 : ℚ)
               offset := 0
               dur := (1 / 20 : ℚ)
               gain := some (1 - (i : ℚ) / 3, playTime + i * (1 / 20 : ℚ)) })
      | Fx.stutter =>
          (1 + 4,
           (List.range 4).map fun i =>
             { buf := sb
               startAt := playTime + i * (60 / ctx.bpm / 8)
               offset := 0
               dur := 60 / ctx.bpm / 8
               gain := none })
      | Fx.lowpass => (1, [])
      | Fx.highpass => (1, [])
      | Fx.bandpass => (1, [])
      | Fx.filterSweep => (1, [])
      | Fx.phaser => (4, [])
      | Fx.vibrato => (2, [])
      | Fx.autoPan => (2, [])
      | Fx.gate => (1, [])
      | Fx.bitcrusher => (1, [])
      | Fx.stereoWiden => (if ctx.stereoPannerSupported then 3 else 0, [])
      | _ => (0, [])
    let fanOut : Bool := f = Fx.glitch ∨ f = Fx.stutter
    { nodesCreated := 1 + extra.1
      primaryBuffer := some primaryBuf
      primaryStart := if fanOut then none else some playTime
      primaryRouted := !fanOut
      retrigs := extra.2 }
  | _, _ => emptyTrace α

/-! ## Offline export (src/App.tsx, exportSequence) -/

/-- One `offlineContext.createBufferSource()` placed by exportSequence: the
buffer it plays and the `source.start(startTime)` time.  The source is
connected directly to `offlineContext.destination`; no effect nodes exist
on the offline path. -/
structure ExportEvent (α : Type) where
  startTime : ℚ
  buffer : α
deriving DecidableEq, Repr

/-- The offline render job exportSequence sets up: the computed
`totalDuration = secondsPerStep * 16`, the context length
`totalFrames = Math.floor(totalDuration * sampleRate)`, and the placed
sources. -/
structure ExportJob (α : Type) where
  totalDuration : ℚ
  totalFrames : ℤ
  events : List (ExportEvent α)
deriving DecidableEq, Repr

/-- exportSequence from src/App.tsx.  Returns `none` (the early `return`)
when no sequencer sample is loaded.  Otherwise, for each of the 16 steps
whose pattern slot is non-empty, a source starts at `i * secondsPerStep`
playing the reversed buffer when the slot is 'reverse' and the reversed
buffer exists, and the forward buffer otherwise. -/
def exportSequence {α : Type} (bpm sampleRate : ℚ)
    (sequencerSample reversedSequencerSample : Option α)
    (pattern : Pattern) : Option (ExportJob α) :=
  match sequencerSample with
  | none => none
  | some s =>
    let secondsPerStep : ℚ := 60 / bpm / 4
    let totalDuration : ℚ := secondsPerStep * 16
    some
      { totalDuration := totalDuration
        totalFrames := ⌊totalDuration * sampleRate⌋
        events :=
          (List.range 16).filterMap fun i =>
            match pattern.getD i none with
            | none => none
            | some fx =>
              some
                { startTime := (i : ℚ) * secondsPerStep
                  buffer :=
                    match fx, reversedSequencerSample with
                    | Fx.reverse, some r => r
                    | _, _ => s } }

/-! ## WAV encoding and PCM decoding (src/services/audioUtils.ts) -/

/-- JavaScript's ToInt16 truncation toward zero, on a rational sample
value. -/
def jsTrunc (q : ℚ) : ℤ :=
  if 0 ≤ q then ⌊q⌋ else ⌈q⌉

/-- The 16-bit wrap applied by `DataView.setInt16`. -/
def toInt16 (n : ℤ) : ℤ :=
  (n + 32768) % 65536 - 32768

/-- The per-sample body of exportToWav's PCM loop: clamp to [-1, 1], then
scale negatives by 0x8000 and non-negatives by 0x7FFF, then store as a
16-bit integer. -/
def encodeSample (s : ℚ) : ℤ :=
  let clamped := max (-1) (min 1 s)
  let scaled := if clamped < 0 then clamped * 32768 else clamped * 32767
  toInt16 (jsTrunc scaled)

/-- The per-sample conversion of decodePCMAudioData: divide the 16-bit
integer by 32768.0. -/
def decodeSample (v : ℤ) : ℚ :=
  (v : ℚ) / 32768

/-- The interleaved 16-bit PCM data written by exportToWav's sample loop:
frame by frame, one encoded sample per channel. -/
def encodePCM (channels : List (List ℚ)) (frames : ℕ) : List ℤ :=
  ((List.range frames).map fun off =>
    channels.map fun ch => encodeSample (ch.getD off 0)).flatten

/-- One de-interleaved channel of decodePCMAudioData:
`channelData[i] = dataInt16[i * numChannels + channel] / 32768.0`. -/
def decodePCMChannel (data : List ℤ) (numChannels ch frames : ℕ) :
    List ℚ :=
  (List.range frames).map fun i =>
    decodeSample (data.getD (i * numChannels + ch) 0)

/-- decodePCMAudioData from src/services/audioUtils.ts: fixed stereo
(2 channels), `frameCount = dataInt16.length / numChannels`, each channel
de-interleaved and scaled into [-1, 1]. -/
def decodePCMAudioData (data : List ℤ) : List (List ℚ) :=
  (List.range 2).map fun ch => decodePCMChannel data 2 ch (data.length / 2)

/-! ## Generation request settlement (src/services/geminiService.ts) -/

/-- The event that terminates one run of the generateAudio promise: a
server error (`onerror`), a server-initiated close (`onclose`), the
initial-connection timeout, the post-first-chunk collection timeout, or an
exception from the session setup calls. -/
inductive EndCause where
  | serverError
  | serverClose
  | initialTimeout
  | collectionTimeout
  | setupError
deriving DecidableEq, Repr

/-- The settle attempts made by cleanupAndResolve, in order: with no
collected chunks it rejects with the no-audio message, otherwise it
resolves with the concatenation of all collected chunks (the base64
transport encoding of the resolved bytes is omitted here). -/
def cleanupAttempts (chunks : List (List ℕ)) :
    List (Except String (List ℕ)) :=
  if chunks = [] then
    [Except.error "Music generation did not produce any audio."]
  else
    [Except.ok chunks.flatten]

/-- All settle attempts of one generateAudio run, in program order: the
`onerror` callback rejects before calling cleanupAndResolve, and a setup
exception likewise rejects before calling cleanupAndResolve; the close and
timeout paths go straight to cleanupAndResolve. -/
def settleAttempts (chunks : List (List ℕ)) (cause : EndCause) :
    List (Except String (List ℕ)) :=
  match cause with
  | EndCause.serverError =>
      Except.error "A session error occurred." :: cleanupAttempts chunks
  | EndCause.setupError =>
      Except.error "Error during session setup." :: cleanupAttempts chunks
  | _ => cleanupAttempts chunks

/-- The settlement of the generateAudio promise: the first settle attempt
wins (later resolve / reject calls on an already-settled promise are
ignored). -/
def generateAudioOutcome (chunks : List (List ℕ)) (cause : EndCause) :
    Except String (List ℕ) :=
  (settleAttempts chunks cause).headD (Except.error "unreachable")

/-! ## Helper lemmas -/

lemma getD_set_self (l : Pattern) (i : ℕ) (v : Option Fx) (h : i < l.length) :
    (l.set i v).getD i none = v := by
  simp [List.getD, List.getElem?_set_eq_of_lt _ h]

lemma getD_set_ne (l : Pattern) (i j : ℕ) (v : Option Fx) (h : j ≠ i) :
    (l.set i v).getD j none = l.getD j none := by
  simp [List.getD, List.getElem?_set_ne (Ne.symm h)]

/-! ## Claims about the pattern operations -/

/-- C10: toggling a step preserves the 16-slot shape and changes no other
slot: for every pattern of length 16, index below 16 and selected effect,
the result still has exactly 16 slots and agrees with the input at every
index other than the toggled one. -/
theorem toggleStep_frame (pattern : Pattern) (fx : Fx) (i : ℕ)
    (hlen : pattern.length = 16) (hi : i < 16) :
    (handleToggleStep pattern fx i).length = 16 ∧
      ∀ j : ℕ, j ≠ i →
        (handleToggleStep pattern fx i).getD j none = pattern.getD j none := by
  constructor
  · simp [handleToggleStep, hlen]
  · intro j hj
    exact getD_set_ne pattern i j _ hj

/-- C10 witness: the frame property at a concrete pattern and index. -/
theorem toggleStep_frame_witness :
    (List.replicate 16 (none : Option Fx)).length = 16 ∧ (3 : ℕ) < 16 ∧
      ((handleToggleStep (List.replicate 16 none) Fx.delay 3).length = 16 ∧
        ∀ j : ℕ, j ≠ 3 →
          (handleToggleStep (List.replicate 16 none) Fx.delay 3).getD j none =
            (List.replicate 16 (none : Option Fx)).getD j none) :=
  ⟨by decide, by decide,
    toggleStep_frame (List.replicate 16 none) Fx.delay 3 (by decide) (by decide)⟩

/-- C7 counterexample: toggling twice does not restore a slot that held a
different effect.  With slot 0 holding 'delay' and selected effect
'reverb', toggling index 0 twice leaves the slot empty, not 'delay'. -/
theorem toggleStep_twice_counterexample :
    (handleToggleStep
        (handleToggleStep ((some Fx.delay) :: List.replicate 15 none)
          Fx.reverb 0)
        Fx.reverb 0).getD 0 none ≠
      ((some Fx.delay) :: List.replicate 15 none).getD 0 none := by
  decide

/-- C7 amended: toggling the same index twice with the same selected effect
restores the slot exactly when it originally held that effect or was empty;
otherwise the slot ends empty. -/
theorem toggleStep_twice (pattern : Pattern) (fx : Fx) (i : ℕ)
    (hi : i < pattern.length) :
    ((pattern.getD i none = some fx ∨ pattern.getD i none = none) →
        (handleToggleStep (handleToggleStep pattern fx i) fx i).getD i none =
          pattern.getD i none) ∧
      (pattern.getD i none ≠ some fx → pattern.getD i none ≠ none →
        (handleToggleStep (handleToggleStep pattern fx i) fx i).getD i none =
          none) := by
  have hi' : i < (handleToggleStep pattern fx i).length := by
    simpa [handleToggleStep] using hi
  have e1 : (handleToggleStep pattern fx i).getD i none =
      (if pattern.getD i none = some fx then none else some fx) :=
    getD_set_self pattern i _ hi
  have e2 :
      (handleToggleStep (handleToggleStep pattern fx i) fx i).getD i none =
        (if (handleToggleStep pattern fx i).getD i none = some fx then none
         else some fx) :=
    getD_set_self _ i _ hi'
  rw [e1] at e2
  by_cases hcase : pattern.getD i none = some fx
  · rw [if_pos hcase, if_neg (by simp)] at e2
    exact ⟨fun _ => by rw [e2, hcase], fun hne _ => absurd hcase hne⟩
  · rw [if_neg hcase, if_pos rfl] at e2
    refine ⟨?_, fun _ _ => e2⟩
    rintro (h | h)
    · exact absurd h hcase
    · rw [e2, h]

/-- C7 witness: the double toggle at a concrete pattern whose slot holds
the selected effect. -/
theorem toggleStep_twice_witness :
    (0 : ℕ) < ((some Fx.reverb) :: List.replicate 15 (none : Option Fx)).length ∧
      (((((some Fx.reverb) :: List.replicate 15 none : Pattern)).getD 0 none =
            some Fx.reverb ∨
          (((some Fx.reverb) :: List.replicate 15 none : Pattern)).getD 0 none =
            none) →
          (handleToggleStep
              (handleToggleStep ((some Fx.reverb) :: List.replicate 15 none)
                Fx.reverb 0) Fx.reverb 0).getD 0 none =
            (((some Fx.reverb) :: List.replicate 15 none : Pattern)).getD 0
              none) ∧
      ((((some Fx.reverb) :: List.replicate 15 none : Pattern)).getD 0 none ≠
          some Fx.reverb →
        (((some Fx.reverb) :: List.replicate 15 none : Pattern)).getD 0 none ≠
          none →
        (handleToggleStep
            (handleToggleStep ((some Fx.reverb) :: List.replicate 15 none)
              Fx.reverb 0) Fx.reverb 0).getD 0 none = none) :=
  ⟨by decide, toggleStep_twice _ Fx.reverb 0 (by decide)⟩

/-- A fixed random stream for exercising handleRandomizePattern: every draw
picks pool index 0 ('normal'). -/
def witnessPicks : ℕ → ℕ → Fin 26 := fun _ _ => 0

/-- From the all-empty pattern, the first all-'normal' draw is already
valid. -/
lemma witnessDrawValid :
    ∃ k, validDraw (List.replicate 16 none) (drawOnce (witnessPicks k)) :=
  ⟨0, by decide⟩

/-- C6: the randomize operation returns a 16-slot pattern that is not
entirely empty and differs from the input pattern, and its per-slot pool
holds the 20 effect identifiers once each plus `null` with weight 6 (26
entries in all), the whole draw being retried until both constraints
hold. -/
theorem randomize_spec (pattern : Pattern) (picks : ℕ → ℕ → Fin 26)
    (h : ∃ k, validDraw pattern (drawOnce (picks k))) :
    (handleRandomizePattern pattern picks h).length = 16 ∧
      (handleRandomizePattern pattern picks h).all (· = none) = false ∧
      handleRandomizePattern pattern picks h ≠ pattern ∧
      possibleStates.length = 26 ∧
      possibleStates.count none = 6 ∧
      ∀ f : Fx, possibleStates.count (some f) = 1 := by
  obtain ⟨hne, hempty⟩ := Nat.find_spec h
  refine ⟨?_, hempty, ?_, by decide, by decide, ?_⟩
  · simp [handleRandomizePattern, drawOnce]
  · intro heq
    simp only [handleRandomizePattern] at heq
    rw [heq] at hne
    simp [isSamePattern] at hne
  · intro f
    cases f <;> decide

/-- C6 witness: randomize from the all-empty pattern along the fixed
stream. -/
theorem randomize_spec_witness :
    (handleRandomizePattern (List.replicate 16 none) witnessPicks
        witnessDrawValid).length = 16 ∧
      (handleRandomizePattern (List.replicate 16 none) witnessPicks
          witnessDrawValid).all (· = none) = false ∧
      handleRandomizePattern (List.replicate 16 none) witnessPicks
          witnessDrawValid ≠ List.replicate 16 none ∧
      possibleStates.length = 26 ∧
      possibleStates.count none = 6 ∧
      ∀ f : Fx, possibleStates.count (some f) = 1 :=
  randomize_spec (List.replicate 16 none) witnessPicks witnessDrawValid

/-! ## Claims about the step scheduler -/

lemma schedStates_nextStepTime (bpm : ℚ) (st0 : SchedState) (n : ℕ) :
    (schedStates bpm st0 n).nextStepTime =
      st0.nextStepTime + n * (60 / bpm / 4) := by
  induction n with
  | zero => simp [schedStates]
  | succ n ih =>
    simp only [schedStates, schedStep, ih]
    push_cast
    ring

/-- C1: while playing, each while-loop iteration advances the next-step-due
time by the strictly positive step duration `60/bpm/4`, so the due time is
monotonically non-decreasing, and the trigger times of the fired steps are
pairwise non-decreasing within one playback run. -/
theorem scheduler_monotone {α : Type} (bpm : ℚ) (pattern : Pattern)
    (sampleBuffer : Option α) (st0 : SchedState) (hbpm : 0 < bpm) :
    0 < 60 / bpm / 4 ∧
      (∀ n : ℕ, (schedStates bpm st0 (n + 1)).nextStepTime =
          (schedStates bpm st0 n).nextStepTime + 60 / bpm / 4) ∧
      (∀ m n : ℕ, m ≤ n →
          (schedStates bpm st0 m).nextStepTime ≤
            (schedStates bpm st0 n).nextStepTime) ∧
      ∀ n : ℕ, (firedTimes bpm pattern sampleBuffer st0 n).Pairwise (· ≤ ·) := by
  have hd : 0 < 60 / bpm / 4 := by positivity
  have hmono : ∀ m n : ℕ, m ≤ n →
      (schedStates bpm st0 m).nextStepTime ≤
        (schedStates bpm st0 n).nextStepTime := by
    intro m n hmn
    rw [schedStates_nextStepTime, schedStates_nextStepTime]
    have hc : (m : ℚ) ≤ (n : ℚ) := by exact_mod_cast hmn
    have := mul_le_mul_of_nonneg_right hc hd.le
    linarith
  refine ⟨hd, fun n => rfl, hmono, ?_⟩
  intro n
  rw [firedTimes, List.pairwise_filterMap]
  refine (List.pairwise_lt_range n).imp ?_
  intro k k' hkk' b hb b' hb'
  simp only at hb hb'
  split at hb
  · split at hb'
    · cases hb; cases hb'
      exact hmono k k' hkk'.le
    · cases hb'
  · cases hb

/-- C1 witness: the monotonicity bundle at tempo 120 with a loaded sample
and an all-'normal' pattern. -/
theorem scheduler_monotone_witness :
    (0 : ℚ) < 120 ∧
      (0 < 60 / (120 : ℚ) / 4 ∧
        (∀ n : ℕ,
            (schedStates 120 ⟨0, 0⟩ (n + 1)).nextStepTime =
              (schedStates 120 ⟨0, 0⟩ n).nextStepTime + 60 / 120 / 4) ∧
        (∀ m n : ℕ, m ≤ n →
            (schedStates 120 ⟨0, 0⟩ m).nextStepTime ≤
              (schedStates 120 ⟨0, 0⟩ n).nextStepTime) ∧
        ∀ n : ℕ,
          (firedTimes 120 (List.replicate 16 (some Fx.normal))
              (some (0 : ℕ)) ⟨0, 0⟩ n).Pairwise (· ≤ ·)) :=
  ⟨by norm_num,
    scheduler_monotone 120 (List.replicate 16 (some Fx.normal)) (some 0)
      ⟨0, 0⟩ (by norm_num)⟩

/-- C2 counterexample: with the forward sample loaded but the reversed
buffer absent, a 'reverse' step is not skipped — the builder falls back to
the forward buffer and starts the primary source. -/
theorem builder_missing_sample_counterexample :
    (triggerStep (⟨120, some 0, none, true, true⟩ : SchedCtx ℕ)
        (some Fx.reverse) 0).primaryStart = some 0 ∧
      triggerStep (⟨120, some 0, none, true, true⟩ : SchedCtx ℕ)
          (some Fx.reverse) 0 ≠ emptyTrace ℕ := by
  refine ⟨rfl, ?_⟩
  intro h
  have := congrArg StepTrace.nodesCreated h
  simp [triggerStep, emptyTrace] at this

/-- C2 amended: the trigger body is a complete no-op (no nodes, no source
start, no routing, no exception possible) when the forward sample buffer is
absent or the slot is empty; but for 'reverse' with only the reversed
buffer absent, the builder falls back to the forward buffer and still
starts the source at the trigger time. -/
theorem builder_missing_sample (α : Type) :
    (∀ (ctx : SchedCtx α) (fx : Option Fx) (t : ℚ),
        ctx.sampleBuffer = none → triggerStep ctx fx t = emptyTrace α) ∧
      (∀ (ctx : SchedCtx α) (t : ℚ), triggerStep ctx none t = emptyTrace α) ∧
      ∀ (ctx : SchedCtx α) (sb : α) (t : ℚ),
        ctx.sampleBuffer = some sb → ctx.reversedSampleBuffer = none →
          (triggerStep ctx (some Fx.reverse) t).primaryBuffer = some sb ∧
            (triggerStep ctx (some Fx.reverse) t).primaryStart = some t := by
  refine ⟨?_, ?_, ?_⟩
  · intro ctx fx t h
    obtain ⟨b, s, r, ip, sp⟩ := ctx
    cases h
    cases fx <;> rfl
  · intro ctx t
    obtain ⟨b, s, r, ip, sp⟩ := ctx
    cases s <;> rfl
  · intro ctx sb t hs hr
    obtain ⟨b, s, r, ip, sp⟩ := ctx
    cases hs
    cases hr
    exact ⟨rfl, rfl⟩

/-- C2 witness: a no-op trigger with no sample loaded. -/
theorem builder_missing_sample_witness :
    ((⟨120, none, none, true, true⟩ : SchedCtx ℕ).sampleBuffer = none) ∧
      triggerStep (⟨120, none, none, true, true⟩ : SchedCtx ℕ)
          (some Fx.delay) 0 = emptyTrace ℕ :=
  ⟨rfl, (builder_missing_sample ℕ).1 _ (some Fx.delay) 0 rfl⟩

/-- C3: a 'stutter' step schedules exactly 4 copies of the sample at
`(60/bpm)/8` spacing from the trigger time, each playing a slice of that
same duration from buffer offset 0, and the primary source is neither
started nor routed into the limiter. -/
theorem stutter_spec {α : Type} (ctx : SchedCtx α) (sb : α) (t : ℚ)
    (hbpm : 0 < ctx.bpm) (hs : ctx.sampleBuffer = some sb) :
    0 < 60 / ctx.bpm / 8 ∧
      (triggerStep ctx (some Fx.stutter) t).retrigs.length = 4 ∧
      (triggerStep ctx (some Fx.stutter) t).retrigs =
        [{ buf := sb, startAt := t, offset := 0,
           dur := 60 / ctx.bpm / 8, gain := none },
         { buf := sb, startAt := t + 60 / ctx.bpm / 8, offset := 0,
           dur := 60 / ctx.bpm / 8, gain := none },
         { buf := sb, startAt := t + 2 * (60 / ctx.bpm / 8), offset := 0,
           dur := 60 / ctx.bpm / 8, gain := none },
         { buf := sb, startAt := t + 3 * (60 / ctx.bpm / 8), offset := 0,
           dur := 60 / ctx.bpm / 8, gain := none }] ∧
      (triggerStep ctx (some Fx.stutter) t).primaryStart = none ∧
      (triggerStep ctx (some Fx.stutter) t).primaryRouted = false := by
  obtain ⟨b, s, r, ip, sp⟩ := ctx
  cases hs
  refine ⟨by positivity, rfl, ?_, rfl, rfl⟩
  simp only [triggerStep, List.range_succ, List.range_zero, List.map_nil,
    List.nil_append, List.map_append, List.map_cons, List.cons_append]
  norm_num

/-- C3 witness: the stutter trace at tempo 120 and trigger time 0. -/
theorem stutter_spec_witness :
    (0 : ℚ) < (⟨120, some 0, some 1, true, true⟩ : SchedCtx ℕ).bpm ∧
      (⟨120, some 0, some 1, true, true⟩ : SchedCtx ℕ).sampleBuffer =
        some 0 ∧
      (0 < 60 / (⟨120, some 0, some 1, true, true⟩ : SchedCtx ℕ).bpm / 8 ∧
        (triggerStep (⟨120, some 0, some 1, true, true⟩ : SchedCtx ℕ)
            (some Fx.stutter) 0).retrigs.length = 4 ∧
        (triggerStep (⟨120, some 0, some 1, true, true⟩ : SchedCtx ℕ)
            (some Fx.stutter) 0).retrigs =
          [{ buf := 0, startAt := 0, offset := 0,
             dur := 60 / (⟨120, some 0, some 1, true, true⟩ : SchedCtx ℕ).bpm / 8,
             gain := none },
           { buf := 0,
             startAt := 0 + 60 / (⟨120, some 0, some 1, true, true⟩ : SchedCtx ℕ).bpm / 8,
             offset := 0,
             dur := 60 / (⟨120, some 0, some 1, true, true⟩ : SchedCtx ℕ).bpm / 8,
             gain := none },
           { buf := 0,
             startAt := 0 + 2 * (60 / (⟨120, some 0, some 1, true, true⟩ : SchedCtx ℕ).bpm / 8),
             offset := 0,
             dur := 60 / (⟨120, some 0, some 1, true, true⟩ : SchedCtx ℕ).bpm / 8,
             gain := none },
           { buf := 0,
             startAt := 0 + 3 * (60 / (⟨120, some 0, some 1, true, true⟩ : SchedCtx ℕ).bpm / 8),
             offset := 0,
             dur := 60 / (⟨120, some 0, some 1, true, true⟩ : SchedCtx ℕ).bpm / 8,
             gain := none }] ∧
        (triggerStep (⟨120, some 0, some 1, true, true⟩ : SchedCtx ℕ)
            (some Fx.stutter) 0).primaryStart = none ∧
        (triggerStep (⟨120, some 0, some 1, true, true⟩ : SchedCtx ℕ)
            (some Fx.stutter) 0).primaryRouted = false) :=
  ⟨by norm_num, rfl, stutter_spec _ 0 0 (by norm_num) rfl⟩

/-- C4 counterexample: the glitch repetitions do not slice from their own
offsets — every `stutterSource.start(when, offset, duration)` call passes
buffer offset 0, so the offsets are `[0, 0, 0]`, not `[0, 1/20, 1/10]` as
the claim states. -/
theorem glitch_offset_counterexample :
    (triggerStep (⟨120, some 0, some 1, true, true⟩ : SchedCtx ℕ)
          (some Fx.glitch) 0).retrigs.map (fun e => e.offset) = [0, 0, 0] ∧
      ¬ (triggerStep (⟨120, some 0, some 1, true, true⟩ : SchedCtx ℕ)
            (some Fx.glitch) 0).retrigs.map (fun e => e.offset) =
          [0, 1 / 20, 1 / 10] := by
  refine ⟨rfl, fun h => ?_⟩
  have h2 : ([0, 0, 0] : List ℚ) = [0, 1 / 20, 1 / 10] :=
    Eq.trans (by rfl) h
  simp at h2

/-- C4 amended: a 'glitch' step schedules exactly 3 copies at 50 ms spacing
from the trigger time, the i-th with gain `1 - i/3` set at its own start
time, each playing a 50 ms slice from the start of the buffer (offset 0 for
every repetition), and the primary source is neither started nor routed
into the limiter. -/
theorem glitch_spec {α : Type} (ctx : SchedCtx α) (sb : α) (t : ℚ)
    (hs : ctx.sampleBuffer = some sb) :
    (triggerStep ctx (some Fx.glitch) t).retrigs.length = 3 ∧
      (triggerStep ctx (some Fx.glitch) t).retrigs =
        [{ buf := sb, startAt := t, offset := 0, dur := 1 / 20,
           gain := some (1, t) },
         { buf := sb, startAt := t + 1 / 20, offset := 0, dur := 1 / 20,
           gain := some (1 - 1 / 3, t + 1 / 20) },
         { buf := sb, startAt := t + 2 * (1 / 20), offset := 0, dur := 1 / 20,
           gain := some (1 - 2 / 3, t + 2 * (1 / 20)) }] ∧
      (triggerStep ctx (some Fx.glitch) t).primaryStart = none ∧
      (triggerStep ctx (some Fx.glitch) t).primaryRouted = false := by
  obtain ⟨b, s, r, ip, sp⟩ := ctx
  cases hs
  refine ⟨rfl, ?_, rfl, rfl⟩
  simp only [triggerStep, List.range_succ, List.range_zero, List.map_nil,
    List.nil_append, List.map_append, List.map_cons, List.cons_append]
  norm_num

/-- C4 witness: the glitch trace at tempo 120 and trigger time 0. -/
theorem glitch_spec_witness :
    (⟨120, some 0, some 1, true, true⟩ : SchedCtx ℕ).sampleBuffer =
        some 0 ∧
      ((triggerStep (⟨120, some 0, some 1, true, true⟩ : SchedCtx ℕ)
            (some Fx.glitch) 0).retrigs.length = 3 ∧
        (triggerStep (⟨120, some 0, some 1, true, true⟩ : SchedCtx ℕ)
            (some Fx.glitch) 0).retrigs =
          [{ buf := 0, startAt := 0, offset := 0, dur := 1 / 20,
             gain := some (1, 0) },
           { buf := 0, startAt := 0 + 1 / 20, offset := 0, dur := 1 / 20,
             gain := some (1 - 1 / 3, 0 + 1 / 20) },
           { buf := 0, startAt := 0 + 2 * (1 / 20), offset := 0,
             dur := 1 / 20,
             gain := some (1 - 2 / 3, 0 + 2 * (1 / 20)) }] ∧
        (triggerStep (⟨120, some 0, some 1, true, true⟩ : SchedCtx ℕ)
            (some Fx.glitch) 0).primaryStart = none ∧
        (triggerStep (⟨120, some 0, some 1, true, true⟩ : SchedCtx ℕ)
            (some Fx.glitch) 0).primaryRouted = false) :=
  ⟨rfl, glitch_spec _ 0 0 rfl⟩

/-! ## Claim about the offline export -/

/-- C5: with a loaded sample (and its reversed variant), export sets up one
16-step offline render: the context is sized to `16 * (60/bpm/4)` seconds
(in whole frames at the context sample rate), each non-empty step places
one source at `i * stepDuration` connected straight to the destination
(no effect nodes), playing the reversed buffer exactly when the step's
effect is 'reverse' and the forward buffer otherwise, and empty steps place
nothing. -/
theorem exportSequence_spec {α : Type} (bpm sampleRate : ℚ) (s r : α)
    (pattern : Pattern) :
    exportSequence bpm sampleRate (some s) (some r) pattern =
      some
        { totalDuration := 16 * (60 / bpm / 4)
          totalFrames := ⌊16 * (60 / bpm / 4) * sampleRate⌋
          events :=
            (List.range 16).filterMap fun i =>
              (pattern.getD i none).map fun fx =>
                { startTime := (i : ℚ) * (60 / bpm / 4)
                  buffer := if fx = Fx.reverse then r else s } } := by
  simp only [exportSequence, Option.some.injEq]
  have harith : (60 / bpm / 4) * 16 = 16 * (60 / bpm / 4) := by ring
  refine congrArg₂ (fun (d : ℚ) (ev : List (ExportEvent α)) =>
      ExportJob.mk d ⌊d * sampleRate⌋ ev) harith ?_
  apply List.filterMap_congr
  intro i _
  cases hfx : pattern.getD i none with
  | none => rfl
  | some fx => cases fx <;> rfl

/-! ## Claims about the generation request -/

/-- C9 counterexample: a run that collected one chunk but ended through the
`onerror` callback rejects — the error rejection settles the promise before
cleanupAndResolve's resolve call — contradicting the claim that any run
with at least one collected chunk resolves successfully. -/
theorem generateAudio_partial_counterexample :
    ([[1]] : List (List ℕ)).length = 1 ∧
      (generateAudioOutcome [[1]] EndCause.serverError).isOk = false := by
  constructor
  · rfl
  · rfl

/-- C9 amended: the request resolves with the concatenation of the
collected chunks exactly when at least one chunk arrived and the run ended
through close or a timeout; it rejects when no chunk arrived, and also —
regardless of how many chunks were collected — when the run ended through
the `onerror` callback or a session-setup exception, since those paths
reject before cleanupAndResolve can resolve. -/
theorem generateAudio_outcome_spec (chunks : List (List ℕ))
    (cause : EndCause) :
    (generateAudioOutcome chunks cause = Except.ok chunks.flatten ↔
        chunks ≠ [] ∧ cause ≠ EndCause.serverError ∧
          cause ≠ EndCause.setupError) ∧
      ((generateAudioOutcome chunks cause).isOk = true ↔
        chunks ≠ [] ∧ cause ≠ EndCause.serverError ∧
          cause ≠ EndCause.setupError) := by
  cases cause <;> cases chunks <;>
    simp [generateAudioOutcome, settleAttempts, cleanupAttempts,
      Except.isOk, Except.toBool]

/-! ## Claims about the WAV round-trip -/

lemma toInt16_eq_self (v : ℤ) (h1 : -32768 ≤ v) (h2 : v ≤ 32767) :
    toInt16 v = v := by
  unfold toInt16
  rw [Int.emod_eq_of_lt (by linarith) (by linarith)]
  ring

lemma roundtrip_sample_bound (s : ℚ) (h1 : -1 ≤ s) (h2 : s ≤ 1) :
    |s - decodeSample (encodeSample s)| ≤ 2 / 32768 := by
  have hclamp : max (-1 : ℚ) (min 1 s) = s := by
    rw [min_eq_right h2, max_eq_right h1]
  by_cases hneg : s < 0
  · have hq0 : s * 32768 < 0 := mul_neg_of_neg_of_pos hneg (by norm_num)
    have henc : encodeSample s = ⌈s * 32768⌉ := by
      have hlo : (-32768 : ℚ) ≤ s * 32768 := by nlinarith
      have hup : (⌈s * 32768⌉ : ℤ) ≤ 0 := Int.ceil_le.mpr (by push_cast; linarith)
      have hlo' : (-32768 : ℤ) ≤ ⌈s * 32768⌉ := by
        have := Int.le_ceil (s * 32768)
        exact_mod_cast hlo.trans this
      simp only [encodeSample, hclamp, if_pos hneg, jsTrunc,
        if_neg (not_le.mpr hq0)]
      exact toInt16_eq_self _ hlo' (by linarith)
    rw [henc, decodeSample]
    have hceil1 : (⌈s * 32768⌉ : ℚ) < s * 32768 + 1 := Int.ceil_lt_add_one _
    have hceil2 : s * 32768 ≤ (⌈s * 32768⌉ : ℚ) := Int.le_ceil _
    rw [abs_le]
    constructor <;> [nlinarith; nlinarith]
  · push_neg at hneg
    have henc : encodeSample s = ⌊s * 32767⌋ := by
      have hq0 : (0 : ℚ) ≤ s * 32767 := by nlinarith
      have hlo : (0 : ℤ) ≤ ⌊s * 32767⌋ := Int.floor_nonneg.mpr hq0
      have hup : (⌊s * 32767⌋ : ℤ) ≤ 32767 := by
        have := (Int.floor_le (s * 32767)).trans (by nlinarith : s * 32767 ≤ (32767 : ℚ))
        exact_mod_cast this
      simp only [encodeSample, hclamp, if_neg (not_lt.mpr hneg), jsTrunc,
        if_pos hq0]
      exact toInt16_eq_self _ (by linarith) hup
    rw [henc, decodeSample]
    have hfl1 : (⌊s * 32767⌋ : ℚ) ≤ s * 32767 := Int.floor_le _
    have hfl2 : s * 32767 < (⌊s * 32767⌋ : ℚ) + 1 := Int.lt_floor_add_one _
    rw [abs_le]
    constructor <;> [nlinarith; nlinarith]

lemma flatten_getD (L : List (List ℤ)) (n : ℕ)
    (hn : ∀ l ∈ L, l.length = n) (i c : ℕ) (hi : i < L.length)
    (hc : c < n) :
    L.flatten.getD (i * n + c) 0 = (L.getD i []).getD c 0 := by
  induction L generalizing i with
  | nil => simp at hi
  | cons hd tl ih =>
    have hhd : hd.length = n := hn hd (by simp)
    cases i with
    | zero =>
      simp only [List.flatten_cons, Nat.zero_mul, Nat.zero_add, List.getD,
        List.get?_eq_getElem?]
      rw [List.getElem?_append_left (by omega)]
      simp
    | succ i' =>
      have hidx : (i' + 1) * n + c = hd.length + (i' * n + c) := by
        rw [hhd]; ring
      simp only [List.flatten_cons, List.getD, List.get?_eq_getElem?, hidx]
      rw [List.getElem?_append_right (by omega)]
      have hsub : hd.length + (i' * n + c) - hd.length = i' * n + c := by
        omega
      rw [hsub]
      have h2 := ih (fun l hl => hn l (by simp [hl])) i' (by simpa using hi)
      simp only [List.getD, List.get?_eq_getElem?] at h2
      simpa using h2

lemma encodePCM_getD (channels : List (List ℚ)) (frames i c : ℕ)
    (hi : i < frames) (hc : c < channels.length) :
    (encodePCM channels frames).getD (i * channels.length + c) 0 =
      encodeSample ((channels.getD c []).getD i 0) := by
  rw [encodePCM,
    flatten_getD _ channels.length
      (by intro l hl
          obtain ⟨off, _, rfl⟩ := List.mem_map.mp hl
          simp)
      i c (by simpa using hi) hc]
  simp only [List.getD, List.get?_eq_getElem?]
  rw [List.getElem?_map, List.getElem?_range hi]
  cases hx : channels[c]? with
  | none =>
    rw [List.getElem?_eq_none_iff] at hx
    omega
  | some ch =>
    simp [hx]

lemma encodePCM_length (channels : List (List ℚ)) (frames : ℕ) :
    (encodePCM channels frames).length = frames * channels.length := by
  rw [encodePCM, List.length_flatten, List.map_map]
  have : (List.length ∘ fun off => channels.map
      fun ch => encodeSample (ch.getD off 0)) = fun _ => channels.length := by
    funext off
    simp
  rw [this, List.map_const', List.sum_replicate, smul_eq_mul,
    List.length_range]

/-- C8 counterexample: the stereo buffer with single frame
`[65535/65536, 0]` is within [-1, 1], yet after the WAV encode (non-negative
samples scale by 0x7FFF) and the PCM decode (divide by 32768) the left
sample comes back as `32766/32768`, an error of `3/65536 > 1/32768`. -/
theorem wav_roundtrip_counterexample :
    ¬ |(([[(65535 : ℚ) / 65536], [0]] : List (List ℚ)).getD 0 []).getD 0 0 -
          ((decodePCMAudioData
                  (encodePCM [[(65535 : ℚ) / 65536], [0]] 1)).getD 0
              []).getD 0 0| ≤
        1 / 32768 := by
  have henc : encodeSample ((65535 : ℚ) / 65536) = 32766 := by
    have hfl : ⌊(65535 : ℚ) / 65536 * 32767⌋ = 32766 := by
      rw [Int.floor_eq_iff]
      norm_num
    simp only [encodeSample, jsTrunc]
    rw [min_eq_right (by norm_num), max_eq_right (by norm_num),
      if_neg (show ¬ ((65535 : ℚ) / 65536 < 0) by norm_num),
      if_pos (show (0 : ℚ) ≤ (65535 : ℚ) / 65536 * 32767 by norm_num), hfl]
    norm_num [toInt16]
  have h0 : encodeSample 0 = 0 := by
    simp only [encodeSample, jsTrunc]
    rw [min_eq_right (by norm_num), max_eq_right (by norm_num),
      if_neg (show ¬ ((0 : ℚ) < 0) by norm_num),
      if_pos (show (0 : ℚ) ≤ 0 * 32767 by norm_num)]
    norm_num [toInt16]
  have hdata : encodePCM [[(65535 : ℚ) / 65536], [0]] 1 = [32766, 0] := by
    simp [encodePCM, List.range_succ, henc, h0]
  have hdecd :
      ((decodePCMAudioData ([32766, 0] : List ℤ)).getD 0 []).getD 0 0 =
        (32766 : ℚ) / 32768 := by
    simp [decodePCMAudioData, decodePCMChannel, decodeSample,
      List.range_succ]
  have hval :
      (([[(65535 : ℚ) / 65536], [0]] : List (List ℚ)).getD 0 []).getD 0 0 =
        (65535 : ℚ) / 65536 := by
    simp
  rw [hval, hdata, hdecd, abs_of_nonneg (by norm_num)]
  norm_num

/-- C8 amended: for every stereo buffer whose sample values lie in [-1, 1],
encoding with exportToWav's clamp-and-scale 16-bit quantization and
decoding the PCM data back by dividing by 32768 yields, for every frame and
channel, a value within 2/32768 of the original. -/
theorem wav_roundtrip (channels : List (List ℚ)) (frames : ℕ)
    (hch : channels.length = 2)
    (hlen : ∀ ch ∈ channels, ch.length = frames)
    (hrange : ∀ ch ∈ channels, ∀ s ∈ ch, -1 ≤ s ∧ s ≤ 1) :
    ∀ c < 2, ∀ i < frames,
      |(channels.getD c []).getD i 0 -
          ((decodePCMAudioData (encodePCM channels frames)).getD c
              []).getD i 0| ≤
        2 / 32768 := by
  intro c hc i hi
  have hc' : c < channels.length := by omega
  have hdatalen : (encodePCM channels frames).length = frames * 2 := by
    rw [encodePCM_length, hch]
  have e1 : (decodePCMAudioData (encodePCM channels frames)).getD c [] =
      decodePCMChannel (encodePCM channels frames) 2 c
        ((encodePCM channels frames).length / 2) := by
    rw [decodePCMAudioData]
    simp only [List.getD, List.get?_eq_getElem?]
    rw [List.getElem?_map, List.getElem?_range hc]
    rfl
  have e2 : (encodePCM channels frames).length / 2 = frames := by
    rw [hdatalen]
    omega
  have e3 : (decodePCMChannel (encodePCM channels frames) 2 c frames).getD
      i 0 =
      decodeSample ((encodePCM channels frames).getD (i * 2 + c) 0) := by
    rw [decodePCMChannel]
    simp only [List.getD, List.get?_eq_getElem?]
    rw [List.getElem?_map, List.getElem?_range hi]
    rfl
  have e4 := encodePCM_getD channels frames i c hi hc'
  rw [hch] at e4
  rw [e1, e2, e3, e4]
  have hmem : channels.getD c [] ∈ channels := by
    rw [List.getD_eq_getElem channels [] hc']
    exact List.getElem_mem hc'
  have hi' : i < (channels.getD c []).length := by
    rw [hlen _ hmem]
    exact hi
  have hsmem : (channels.getD c []).getD i 0 ∈ channels.getD c [] := by
    rw [List.getD_eq_getElem _ 0 hi']
    exact List.getElem_mem hi'
  obtain ⟨hs1, hs2⟩ := hrange _ hmem _ hsmem
  exact roundtrip_sample_bound _ hs1 hs2

/-- C8 witness: the 2/32768 round-trip bound at a concrete one-frame stereo
buffer. -/
theorem wav_roundtrip_witness :
    ([[(1 : ℚ) / 2], [(-1 : ℚ) / 3]] : List (List ℚ)).length = 2 ∧
      (∀ ch ∈ ([[(1 : ℚ) / 2], [(-1 : ℚ) / 3]] : List (List ℚ)),
        ch.length = 1) ∧
      (∀ ch ∈ ([[(1 : ℚ) / 2], [(-1 : ℚ) / 3]] : List (List ℚ)),
        ∀ s ∈ ch, -1 ≤ s ∧ s ≤ 1) ∧
      ∀ c < 2, ∀ i < 1,
        |((([[(1 : ℚ) / 2], [(-1 : ℚ) / 3]] : List (List ℚ))).getD c
              []).getD i 0 -
            ((decodePCMAudioData
                    (encodePCM [[(1 : ℚ) / 2], [(-1 : ℚ) / 3]] 1)).getD c
                []).getD i 0| ≤
          2 / 32768 :=
  ⟨rfl, by intro ch hch; fin_cases hch <;> rfl,
    by intro ch hch; fin_cases hch <;> intro s hs <;> fin_cases hs <;>
      norm_num,
    wav_roundtrip [[(1 : ℚ) / 2], [(-1 : ℚ) / 3]] 1 rfl
      (by intro ch hch; fin_cases hch <;> rfl)
      (by intro ch hch; fin_cases hch <;> intro s hs <;> fin_cases hs <;>
        norm_num)⟩
